import Mathlib

/-!
Verification of `cmd/flux/export_source_git.go` (the `flux export source git`
subcommand).  The Go code is shallowly embedded: Kubernetes API calls are
modelled by an abstract client record of functions, and the command run is a
pure function returning the trace of API calls issued, the list of YAML
documents printed, the log messages emitted, and the returned error (errors
are modelled by their message strings, `fmt.Errorf` wrapping included).
-/

namespace Flux

/-- Go `map[string]string` (labels, annotations), modelled as an association
list; the nil map is the empty list. -/
abbrev StringMap := List (String × String)

/-- `metav1.TypeMeta`. -/
structure TypeMeta where
  kind : String
  apiVersion : String
deriving DecidableEq, Repr

/-- The zero value of `metav1.TypeMeta`. -/
def TypeMeta.zero : TypeMeta := ⟨"", ""⟩

/-- The fields of `metav1.ObjectMeta` relevant to the export path: the four
copied by `exportGit`, plus `resourceVersion` and `uid` as representatives of
the remaining (dropped) metadata fields. -/
structure ObjectMeta where
  name : String
  ns : String
  labels : StringMap
  annotations : StringMap
  resourceVersion : String
  uid : String
deriving DecidableEq, Repr

/-- The zero value of `metav1.ObjectMeta`. -/
def ObjectMeta.zero : ObjectMeta := ⟨"", "", [], [], "", ""⟩

/-- `meta.LocalObjectReference` (the `SecretRef` field's type). -/
structure LocalObjectReference where
  name : String
deriving DecidableEq, Repr

/-- `sourcev1.GitRepositorySpec` (v1beta1): URL, interval, optional secret
reference, and further options; `exportGit` copies the whole value. -/
structure GitRepositorySpec where
  url : String
  interval : String
  secretRef : Option LocalObjectReference
  reference : Option String
  ignore : Option String
  suspend : Bool
deriving DecidableEq, Repr

/-- `sourcev1.GitRepositoryStatus` (v1beta1), abridged to representative
fields; `exportGit` leaves the whole value at zero. -/
structure GitRepositoryStatus where
  observedGeneration : Int
  url : String
  artifactRevision : String
deriving DecidableEq, Repr

/-- The zero value of `sourcev1.GitRepositoryStatus`. -/
def GitRepositoryStatus.zero : GitRepositoryStatus := ⟨0, "", ""⟩

/-- `sourcev1.GitRepository`. -/
structure GitRepository where
  typeMeta : TypeMeta
  objectMeta : ObjectMeta
  spec : GitRepositorySpec
  status : GitRepositoryStatus
deriving DecidableEq, Repr

/-- `corev1.Secret`: metadata, `Data` (`map[string][]byte`, bytes as `Nat`),
and `Type`. -/
structure Secret where
  typeMeta : TypeMeta
  objectMeta : ObjectMeta
  data : List (String × List Nat)
  type : String
deriving DecidableEq, Repr

/-- `types.NamespacedName`. -/
structure NamespacedName where
  ns : String
  name : String
deriving DecidableEq, Repr

/-- The context built by `context.WithTimeout(context.Background(),
rootArgs.timeout)`: all that matters to the API calls is its deadline
duration (nanoseconds). -/
structure Ctx where
  timeout : Nat
deriving DecidableEq, Repr

/-- `context.WithTimeout(context.Background(), timeout)`. -/
def mkCtx (timeout : Nat) : Ctx := ⟨timeout⟩

/-- One API-client call against the cluster, recording the context it was
issued under and its arguments. -/
inductive ApiCall where
  | list (ctx : Ctx) (ns : String)
  | getRepo (ctx : Ctx) (nn : NamespacedName)
  | getSecret (ctx : Ctx) (nn : NamespacedName)
deriving DecidableEq, Repr

/-- The context an API call was issued under. -/
def ApiCall.ctx : ApiCall → Ctx
  | .list c _ => c
  | .getRepo c _ => c
  | .getSecret c _ => c

/-- Whether a call is a repository-level call (List of GitRepositories or Get
of a GitRepository), as opposed to a credentials Secret Get. -/
def ApiCall.isRepoCall : ApiCall → Bool
  | .list _ _ => true
  | .getRepo _ _ => true
  | .getSecret _ _ => false

/-- One printed YAML document (each `fmt.Println("---")` followed by the
marshalled resource). -/
inductive Doc where
  | repo (r : GitRepository)
  | secret (s : Secret)
deriving DecidableEq, Repr

/-- The abstract Kubernetes API client: the behaviour of `kubeClient.List`
and `kubeClient.Get` on each input, errors modelled as message strings. -/
structure KubeClient where
  listGitRepos : String → Except String (List GitRepository)
  getGitRepo : NamespacedName → Except String GitRepository
  getSecret : NamespacedName → Except String Secret

/-- The observable result of a command run: API calls issued in order,
documents printed in order, log messages, and the returned Go error
(`none` = nil). -/
structure RunResult where
  calls : List ApiCall
  docs : List Doc
  logs : List String
  err : Option String
deriving DecidableEq, Repr

/-- `exportArgs` flag set. -/
structure ExportArgs where
  all : Bool
deriving DecidableEq, Repr

/-- `rootArgs` fields used by this command. -/
structure RootArgs where
  timeout : Nat
  ns : String
  kubeconfig : String
  kubecontext : String
deriving DecidableEq, Repr

/-- `sourcev1.GitRepositoryKind`. -/
def gitRepositoryKind : String := "GitRepository"

/-- `sourcev1.GroupVersion.String()` for API group
`source.toolkit.fluxcd.io`, version `v1beta1`. -/
def groupVersionString : String := "source.toolkit.fluxcd.io/v1beta1"

/-- `exportGit`: the normalized output envelope built from a GitRepository
(the printed error path of `yaml.Marshal` cannot trigger on this struct, so
the function is total and the document is always printed). -/
def exportGit (source : GitRepository) : GitRepository :=
  { typeMeta := { kind := gitRepositoryKind, apiVersion := groupVersionString }
    objectMeta := { ObjectMeta.zero with
      name := source.objectMeta.name
      ns := source.objectMeta.ns
      labels := source.objectMeta.labels
      annotations := source.objectMeta.annotations }
    spec := source.spec
    status := GitRepositoryStatus.zero }

/-- The normalized Secret envelope built inside `exportGitCredentials` from
the requested name and the fetched Secret. -/
def exportSecret (nn : NamespacedName) (cred : Secret) : Secret :=
  { typeMeta := { kind := "Secret", apiVersion := "v1" }
    objectMeta := { ObjectMeta.zero with name := nn.name, ns := nn.ns }
    data := cred.data
    type := cred.type }

/-- The message of `fmt.Errorf("failed to retrieve secret %s, error: %w",
namespacedName.Name, err)`. -/
def failedSecretMsg (name msg : String) : String :=
  "failed to retrieve secret " ++ name ++ ", error: " ++ msg

/-- `exportGitCredentials`: when the repository has a `SecretRef`, Get the
Secret of that name in the repository's namespace, wrap a Get failure, and
otherwise print the normalized Secret; when it has none, do nothing. -/
def exportGitCredentials (ctx : Ctx) (kubeClient : KubeClient)
    (source : GitRepository) : RunResult :=
  match source.spec.secretRef with
  | none => ⟨[], [], [], none⟩
  | some ref =>
    let nn : NamespacedName := ⟨source.objectMeta.ns, ref.name⟩
    match kubeClient.getSecret nn with
    | .error e => ⟨[.getSecret ctx nn], [], [], some (failedSecretMsg nn.name e)⟩
    | .ok cred => ⟨[.getSecret ctx nn], [Doc.secret (exportSecret nn cred)], [], none⟩

/-- One iteration of the `--all` loop body: print the repository's export
document, then, when `--with-credentials` is set, run
`exportGitCredentials`. -/
def exportRepoStep (ctx : Ctx) (kubeClient : KubeClient) (withCred : Bool)
    (repository : GitRepository) : RunResult :=
  let doc := Doc.repo (exportGit repository)
  if withCred then
    let r := exportGitCredentials ctx kubeClient repository
    ⟨r.calls, doc :: r.docs, r.logs, r.err⟩
  else
    ⟨[], [doc], [], none⟩

/-- The `for _, repository := range list.Items` loop: run the step on each
item in order, returning at the first error. -/
def exportLoop (ctx : Ctx) (kubeClient : KubeClient) (withCred : Bool) :
    List GitRepository → RunResult
  | [] => ⟨[], [], [], none⟩
  | r :: rest =>
    let s := exportRepoStep ctx kubeClient withCred r
    match s.err with
    | some e => ⟨s.calls, s.docs, s.logs, some e⟩
    | none =>
      let t := exportLoop ctx kubeClient withCred rest
      ⟨s.calls ++ t.calls, s.docs ++ t.docs, s.logs ++ t.logs, t.err⟩

/-- The `logger.Failuref` message printed when the list is empty. -/
def noSourceMsg (ns : String) : String :=
  "no source found in " ++ ns ++ " namespace"

/-- `exportSourceGitCmdRun`: validate arguments, build the timeout context,
build the client (`utils.KubeClient`, abstracted as a parameter), then either
List all repositories in the namespace and export each, or Get the named one
and export it; `exportSourceWithCred` adds the credentials path. -/
def exportSourceGitCmdRun (rootArgs : RootArgs) (exportArgs : ExportArgs)
    (exportSourceWithCred : Bool) (args : List String)
    (utilsKubeClient : String → String → Except String KubeClient) :
    RunResult :=
  if !exportArgs.all && args.length < 1 then
    ⟨[], [], [], some "name is required"⟩
  else
    let ctx := mkCtx rootArgs.timeout
    match utilsKubeClient rootArgs.kubeconfig rootArgs.kubecontext with
    | .error e => ⟨[], [], [], some e⟩
    | .ok kubeClient =>
      if exportArgs.all then
        match kubeClient.listGitRepos rootArgs.ns with
        | .error e => ⟨[.list ctx rootArgs.ns], [], [], some e⟩
        | .ok items =>
          if items.length = 0 then
            ⟨[.list ctx rootArgs.ns], [], [noSourceMsg rootArgs.ns], none⟩
          else
            let r := exportLoop ctx kubeClient exportSourceWithCred items
            ⟨.list ctx rootArgs.ns :: r.calls, r.docs, r.logs, r.err⟩
      else
        let name := args.headD ""
        let nn : NamespacedName := ⟨rootArgs.ns, name⟩
        match kubeClient.getGitRepo nn with
        | .error e => ⟨[.getRepo ctx nn], [], [], some e⟩
        | .ok repository =>
          let doc := Doc.repo (exportGit repository)
          if exportSourceWithCred then
            let r := exportGitCredentials ctx kubeClient repository
            ⟨.getRepo ctx nn :: r.calls, doc :: r.docs, r.logs, r.err⟩
          else
            ⟨[.getRepo ctx nn], [doc], [], none⟩

/-! Concrete fixtures used by witnesses and counterexamples. -/

/-- A concrete spec with the given secret reference. -/
def demoSpec (sr : Option LocalObjectReference) : GitRepositorySpec :=
  ⟨"https://example.com/repo.git", "1m0s", sr, some "main", none, false⟩

/-- A concrete GitRepository referencing the Secret named `creds`, with
non-zero status and extra metadata so normalization is observable. -/
def demoRepo : GitRepository :=
  { typeMeta := TypeMeta.zero
    objectMeta := ⟨"app", "flux-system", [("team", "dev")], [("owner", "sre")], "42", "uid-1"⟩
    spec := demoSpec (some ⟨"creds"⟩)
    status := ⟨3, "http://artifact.local", "main/abc123"⟩ }

/-- A concrete GitRepository with no `SecretRef`. -/
def demoRepoNoRef : GitRepository :=
  { demoRepo with spec := demoSpec none }

/-- A concrete Secret carrying labels and data. -/
def demoSecret : Secret :=
  { typeMeta := TypeMeta.zero
    objectMeta := ⟨"creds", "flux-system", [("tier", "prod")], [("audit", "yes")], "7", "uid-2"⟩
    data := [("username", [103, 105, 116]), ("password", [112, 119])]
    type := "Opaque" }

/-- Concrete root arguments. -/
def demoRoot : RootArgs := ⟨300000000000, "flux-system", "/home/user/.kube/config", "prod-cluster"⟩

/-- A client on which every call succeeds. -/
def demoClient : KubeClient :=
  { listGitRepos := fun _ => .ok [demoRepo]
    getGitRepo := fun _ => .ok demoRepo
    getSecret := fun _ => .ok demoSecret }

/-- A client whose repository reads succeed but whose Secret Get fails. -/
def failingSecretClient : KubeClient :=
  { listGitRepos := fun _ => .ok [demoRepo]
    getGitRepo := fun _ => .ok demoRepo
    getSecret := fun _ => .error "boom" }

/-- A client that returns the repository without a SecretRef. -/
def demoClientNoRef : KubeClient :=
  { listGitRepos := fun _ => .ok [demoRepoNoRef]
    getGitRepo := fun _ => .ok demoRepoNoRef
    getSecret := fun _ => .error "never called" }

/-- A client whose List returns zero items. -/
def emptyListClient : KubeClient :=
  { listGitRepos := fun _ => .ok []
    getGitRepo := fun _ => .error "not found"
    getSecret := fun _ => .error "not found" }

/-- A client returning two repositories, whose Secret Get always fails. -/
def failingSecretListClient : KubeClient :=
  { listGitRepos := fun _ => .ok [demoRepo, demoRepo]
    getGitRepo := fun _ => .ok demoRepo
    getSecret := fun _ => .error "boom" }

/-! Helper lemmas about the loop and the credentials path. -/

/-- Every call issued by `exportGitCredentials` carries the given context. -/
theorem creds_calls_ctx (ctx : Ctx) (kubeClient : KubeClient)
    (source : GitRepository) :
    ∀ c ∈ (exportGitCredentials ctx kubeClient source).calls, c.ctx = ctx := by
  intro c hc
  cases h : source.spec.secretRef with
  | none => simp [exportGitCredentials, h] at hc
  | some ref =>
    cases hs : kubeClient.getSecret ⟨source.objectMeta.ns, ref.name⟩ with
    | error e => simp [exportGitCredentials, h, hs] at hc; subst hc; rfl
    | ok cred => simp [exportGitCredentials, h, hs] at hc; subst hc; rfl

/-- Every call issued by `exportGitCredentials` is a Secret Get. -/
theorem creds_calls_not_repo (ctx : Ctx) (kubeClient : KubeClient)
    (source : GitRepository) :
    ∀ c ∈ (exportGitCredentials ctx kubeClient source).calls,
      c.isRepoCall = false := by
  intro c hc
  cases h : source.spec.secretRef with
  | none => simp [exportGitCredentials, h] at hc
  | some ref =>
    cases hs : kubeClient.getSecret ⟨source.objectMeta.ns, ref.name⟩ with
    | error e => simp [exportGitCredentials, h, hs] at hc; subst hc; rfl
    | ok cred => simp [exportGitCredentials, h, hs] at hc; subst hc; rfl

/-- Every call issued by one loop step carries the given context. -/
theorem step_calls_ctx (ctx : Ctx) (kubeClient : KubeClient) (withCred : Bool)
    (r : GitRepository) :
    ∀ c ∈ (exportRepoStep ctx kubeClient withCred r).calls, c.ctx = ctx := by
  intro c hc
  cases withCred with
  | false => simp [exportRepoStep] at hc
  | true =>
    simp only [exportRepoStep, if_pos] at hc
    exact creds_calls_ctx ctx kubeClient r c hc

/-- Every call issued by one loop step is a Secret Get. -/
theorem step_calls_not_repo (ctx : Ctx) (kubeClient : KubeClient)
    (withCred : Bool) (r : GitRepository) :
    ∀ c ∈ (exportRepoStep ctx kubeClient withCred r).calls,
      c.isRepoCall = false := by
  intro c hc
  cases withCred with
  | false => simp [exportRepoStep] at hc
  | true =>
    simp only [exportRepoStep, if_pos] at hc
    exact creds_calls_not_repo ctx kubeClient r c hc

/-- Every call issued by the `--all` loop carries the given context. -/
theorem loop_calls_ctx (ctx : Ctx) (kubeClient : KubeClient) (withCred : Bool)
    (rs : List GitRepository) :
    ∀ c ∈ (exportLoop ctx kubeClient withCred rs).calls, c.ctx = ctx := by
  induction rs with
  | nil => intro c hc; simp [exportLoop] at hc
  | cons r rest ih =>
    intro c hc
    simp only [exportLoop] at hc
    cases he : (exportRepoStep ctx kubeClient withCred r).err with
    | some e =>
      rw [he] at hc
      exact step_calls_ctx ctx kubeClient withCred r c hc
    | none =>
      rw [he] at hc
      simp only [List.mem_append] at hc
      rcases hc with hc | hc
      · exact step_calls_ctx ctx kubeClient withCred r c hc
      · exact ih c hc

/-- Every call issued by the `--all` loop is a Secret Get. -/
theorem loop_calls_not_repo (ctx : Ctx) (kubeClient : KubeClient)
    (withCred : Bool) (rs : List GitRepository) :
    ∀ c ∈ (exportLoop ctx kubeClient withCred rs).calls,
      c.isRepoCall = false := by
  induction rs with
  | nil => intro c hc; simp [exportLoop] at hc
  | cons r rest ih =>
    intro c hc
    simp only [exportLoop] at hc
    cases he : (exportRepoStep ctx kubeClient withCred r).err with
    | some e =>
      rw [he] at hc
      exact step_calls_not_repo ctx kubeClient withCred r c hc
    | none =>
      rw [he] at hc
      simp only [List.mem_append] at hc
      rcases hc with hc | hc
      · exact step_calls_not_repo ctx kubeClient withCred r c hc
      · exact ih c hc

/-- The `--all` loop issues no repository-level call. -/
theorem loop_countP_repo (ctx : Ctx) (kubeClient : KubeClient)
    (withCred : Bool) (rs : List GitRepository) :
    (exportLoop ctx kubeClient withCred rs).calls.countP ApiCall.isRepoCall = 0 := by
  rw [List.countP_eq_zero]
  intro c hc
  simp [loop_calls_not_repo ctx kubeClient withCred rs c hc]

/-- The credentials path issues no repository-level call. -/
theorem creds_countP_repo (ctx : Ctx) (kubeClient : KubeClient)
    (source : GitRepository) :
    (exportGitCredentials ctx kubeClient source).calls.countP ApiCall.isRepoCall = 0 := by
  rw [List.countP_eq_zero]
  intro c hc
  simp [creds_calls_not_repo ctx kubeClient source c hc]

/-- The loop on an appended list, when the prefix succeeds, is the prefix's
contributions followed by the rest's. -/
theorem exportLoop_append (ctx : Ctx) (kubeClient : KubeClient)
    (withCred : Bool) (pre rs : List GitRepository)
    (hpre : (exportLoop ctx kubeClient withCred pre).err = none) :
    exportLoop ctx kubeClient withCred (pre ++ rs) =
      ⟨(exportLoop ctx kubeClient withCred pre).calls ++
         (exportLoop ctx kubeClient withCred rs).calls,
       (exportLoop ctx kubeClient withCred pre).docs ++
         (exportLoop ctx kubeClient withCred rs).docs,
       (exportLoop ctx kubeClient withCred pre).logs ++
         (exportLoop ctx kubeClient withCred rs).logs,
       (exportLoop ctx kubeClient withCred rs).err⟩ := by
  induction pre with
  | nil => simp [exportLoop]
  | cons r rest ih =>
    cases he : (exportRepoStep ctx kubeClient withCred r).err with
    | some e =>
      exfalso
      simp only [exportLoop, he] at hpre
      exact Option.some_ne_none e hpre
    | none =>
      have hrest : (exportLoop ctx kubeClient withCred rest).err = none := by
        simp only [exportLoop, he] at hpre
        exact hpre
      have hih := ih hrest
      simp only [List.cons_append, exportLoop, he, List.append_eq]
      rw [hih]
      simp [List.append_assoc]

/-! Claim theorems. -/

/-- Claim C1: for every GitRepository given to `exportGit`, the exported
document copies the input's name, namespace, labels, annotations and spec
unchanged, sets the TypeMeta to kind `GitRepository` with the source API
group/version, and leaves every other field (status, resourceVersion, uid)
at its zero value. -/
theorem exportGit_copies_and_normalizes (source : GitRepository) :
    (exportGit source).objectMeta.name = source.objectMeta.name ∧
    (exportGit source).objectMeta.ns = source.objectMeta.ns ∧
    (exportGit source).objectMeta.labels = source.objectMeta.labels ∧
    (exportGit source).objectMeta.annotations = source.objectMeta.annotations ∧
    (exportGit source).spec = source.spec ∧
    (exportGit source).typeMeta = ⟨gitRepositoryKind, groupVersionString⟩ ∧
    (exportGit source).status = GitRepositoryStatus.zero ∧
    (exportGit source).objectMeta.resourceVersion = "" ∧
    (exportGit source).objectMeta.uid = "" :=
  ⟨rfl, rfl, rfl, rfl, rfl, rfl, rfl, rfl, rfl⟩

/-- Claim C8: with `--all` false and no positional argument, the command
returns the error `name is required`, issues no API call, and prints
nothing. -/
theorem run_no_name_rejected (rootArgs : RootArgs) (withCred : Bool)
    (utilsKubeClient : String → String → Except String KubeClient) :
    exportSourceGitCmdRun rootArgs ⟨false⟩ withCred [] utilsKubeClient =
      ⟨[], [], [], some "name is required"⟩ :=
  rfl

/-- Claim C9: for a GitRepository whose `Spec.SecretRef` is nil,
`exportGitCredentials` performs no Secret fetch, prints nothing and returns
nil, so a with-credentials export of such a repository emits only the
GitRepository document and succeeds. -/
theorem creds_nil_secretRef (rootArgs : RootArgs) (name : String)
    (utilsKubeClient : String → String → Except String KubeClient)
    (kubeClient : KubeClient) (source : GitRepository)
    (hclient : utilsKubeClient rootArgs.kubeconfig rootArgs.kubecontext = .ok kubeClient)
    (hget : kubeClient.getGitRepo ⟨rootArgs.ns, name⟩ = .ok source)
    (h : source.spec.secretRef = none) :
    exportGitCredentials (mkCtx rootArgs.timeout) kubeClient source = ⟨[], [], [], none⟩ ∧
    exportSourceGitCmdRun rootArgs ⟨false⟩ true [name] utilsKubeClient =
      ⟨[.getRepo (mkCtx rootArgs.timeout) ⟨rootArgs.ns, name⟩],
       [Doc.repo (exportGit source)], [], none⟩ := by
  refine ⟨by simp [exportGitCredentials, h], ?_⟩
  simp [exportSourceGitCmdRun, hclient, hget, exportGitCredentials, h]

/-- Witness for C9 at a concrete repository without a SecretRef. -/
theorem creds_nil_secretRef_witness :
    exportGitCredentials (mkCtx demoRoot.timeout) demoClientNoRef demoRepoNoRef =
      ⟨[], [], [], none⟩ ∧
    exportSourceGitCmdRun demoRoot ⟨false⟩ true ["app"] (fun _ _ => .ok demoClientNoRef) =
      ⟨[.getRepo (mkCtx demoRoot.timeout) ⟨demoRoot.ns, "app"⟩],
       [Doc.repo (exportGit demoRepoNoRef)], [], none⟩ :=
  creds_nil_secretRef demoRoot "app" (fun _ _ => .ok demoClientNoRef)
    demoClientNoRef demoRepoNoRef rfl rfl rfl

/-- Claim C10: in `--all` mode, when the List succeeds with zero items, the
command logs a failure message naming the namespace and returns nil, with no
YAML output. -/
theorem run_all_empty_list (rootArgs : RootArgs) (withCred : Bool)
    (args : List String)
    (utilsKubeClient : String → String → Except String KubeClient)
    (kubeClient : KubeClient)
    (hclient : utilsKubeClient rootArgs.kubeconfig rootArgs.kubecontext = .ok kubeClient)
    (hlist : kubeClient.listGitRepos rootArgs.ns = .ok []) :
    exportSourceGitCmdRun rootArgs ⟨true⟩ withCred args utilsKubeClient =
      ⟨[.list (mkCtx rootArgs.timeout) rootArgs.ns], [],
       [noSourceMsg rootArgs.ns], none⟩ := by
  simp [exportSourceGitCmdRun, hclient, hlist]

/-- Witness for C10 at a concrete client whose List returns no items. -/
theorem run_all_empty_list_witness :
    exportSourceGitCmdRun demoRoot ⟨true⟩ true [] (fun _ _ => .ok emptyListClient) =
      ⟨[.list (mkCtx demoRoot.timeout) demoRoot.ns], [],
       [noSourceMsg demoRoot.ns], none⟩ :=
  run_all_empty_list demoRoot true [] (fun _ _ => .ok emptyListClient)
    emptyListClient rfl rfl

/-- Claim C2: for a GitRepository whose `Spec.SecretRef` is non-nil, the
with-credentials export fetches the Secret named by the ref in the
repository's namespace and prints both documents, the GitRepository first
and the referenced Secret immediately after it, each as a separate YAML
document — both for the single-name invocation and for the per-item step of
`--all` mode. -/
theorem run_with_creds_repo_then_secret (rootArgs : RootArgs) (name : String)
    (utilsKubeClient : String → String → Except String KubeClient)
    (kubeClient : KubeClient) (repository : GitRepository)
    (ref : LocalObjectReference) (cred : Secret)
    (hclient : utilsKubeClient rootArgs.kubeconfig rootArgs.kubecontext = .ok kubeClient)
    (hget : kubeClient.getGitRepo ⟨rootArgs.ns, name⟩ = .ok repository)
    (href : repository.spec.secretRef = some ref)
    (hsec : kubeClient.getSecret ⟨repository.objectMeta.ns, ref.name⟩ = .ok cred) :
    exportSourceGitCmdRun rootArgs ⟨false⟩ true [name] utilsKubeClient =
      ⟨[.getRepo (mkCtx rootArgs.timeout) ⟨rootArgs.ns, name⟩,
        .getSecret (mkCtx rootArgs.timeout) ⟨repository.objectMeta.ns, ref.name⟩],
       [Doc.repo (exportGit repository),
        Doc.secret (exportSecret ⟨repository.objectMeta.ns, ref.name⟩ cred)],
       [], none⟩ ∧
    exportRepoStep (mkCtx rootArgs.timeout) kubeClient true repository =
      ⟨[.getSecret (mkCtx rootArgs.timeout) ⟨repository.objectMeta.ns, ref.name⟩],
       [Doc.repo (exportGit repository),
        Doc.secret (exportSecret ⟨repository.objectMeta.ns, ref.name⟩ cred)],
       [], none⟩ := by
  constructor
  · simp [exportSourceGitCmdRun, hclient, hget, exportGitCredentials, href, hsec]
  · simp [exportRepoStep, exportGitCredentials, href, hsec]

/-- Witness for C2 at a concrete repository and secret. -/
theorem run_with_creds_repo_then_secret_witness :
    exportSourceGitCmdRun demoRoot ⟨false⟩ true ["app"] (fun _ _ => .ok demoClient) =
      ⟨[.getRepo (mkCtx demoRoot.timeout) ⟨demoRoot.ns, "app"⟩,
        .getSecret (mkCtx demoRoot.timeout) ⟨demoRepo.objectMeta.ns, "creds"⟩],
       [Doc.repo (exportGit demoRepo),
        Doc.secret (exportSecret ⟨demoRepo.objectMeta.ns, "creds"⟩ demoSecret)],
       [], none⟩ ∧
    exportRepoStep (mkCtx demoRoot.timeout) demoClient true demoRepo =
      ⟨[.getSecret (mkCtx demoRoot.timeout) ⟨demoRepo.objectMeta.ns, "creds"⟩],
       [Doc.repo (exportGit demoRepo),
        Doc.secret (exportSecret ⟨demoRepo.objectMeta.ns, "creds"⟩ demoSecret)],
       [], none⟩ :=
  run_with_creds_repo_then_secret demoRoot "app" (fun _ _ => .ok demoClient)
    demoClient demoRepo ⟨"creds"⟩ demoSecret rfl rfl rfl rfl

/-- Claim C5: in `--all` mode, when the repositories before position k all
succeed and exporting the k-th repository (its credentials Secret) fails,
the command returns that error and its trace and output contain only the
contributions of the first k+1 repositories: nothing after the failing
position is exported or fetched. -/
theorem run_all_stops_at_first_failure (rootArgs : RootArgs) (withCred : Bool)
    (args : List String)
    (utilsKubeClient : String → String → Except String KubeClient)
    (kubeClient : KubeClient) (pre : List GitRepository) (r : GitRepository)
    (post : List GitRepository) (e : String)
    (hclient : utilsKubeClient rootArgs.kubeconfig rootArgs.kubecontext = .ok kubeClient)
    (hlist : kubeClient.listGitRepos rootArgs.ns = .ok (pre ++ r :: post))
    (hpre : (exportLoop (mkCtx rootArgs.timeout) kubeClient withCred pre).err = none)
    (hr : (exportRepoStep (mkCtx rootArgs.timeout) kubeClient withCred r).err = some e) :
    exportSourceGitCmdRun rootArgs ⟨true⟩ withCred args utilsKubeClient =
      ⟨.list (mkCtx rootArgs.timeout) rootArgs.ns ::
        ((exportLoop (mkCtx rootArgs.timeout) kubeClient withCred pre).calls ++
         (exportRepoStep (mkCtx rootArgs.timeout) kubeClient withCred r).calls),
       (exportLoop (mkCtx rootArgs.timeout) kubeClient withCred pre).docs ++
         (exportRepoStep (mkCtx rootArgs.timeout) kubeClient withCred r).docs,
       (exportLoop (mkCtx rootArgs.timeout) kubeClient withCred pre).logs ++
         (exportRepoStep (mkCtx rootArgs.timeout) kubeClient withCred r).logs,
       some e⟩ := by
  have hsingle : exportLoop (mkCtx rootArgs.timeout) kubeClient withCred (r :: post) =
      ⟨(exportRepoStep (mkCtx rootArgs.timeout) kubeClient withCred r).calls,
       (exportRepoStep (mkCtx rootArgs.timeout) kubeClient withCred r).docs,
       (exportRepoStep (mkCtx rootArgs.timeout) kubeClient withCred r).logs,
       some e⟩ := by
    simp [exportLoop, hr]
  have hloop := exportLoop_append (mkCtx rootArgs.timeout) kubeClient withCred
    pre (r :: post) hpre
  rw [hsingle] at hloop
  simp [exportSourceGitCmdRun, hclient, hlist, hloop]

/-- Witness for C5: two repositories listed, the first one's Secret Get
fails, so only the first is exported. -/
theorem run_all_stops_at_first_failure_witness :
    exportSourceGitCmdRun demoRoot ⟨true⟩ true [] (fun _ _ => .ok failingSecretListClient) =
      ⟨.list (mkCtx demoRoot.timeout) demoRoot.ns ::
        ((exportLoop (mkCtx demoRoot.timeout) failingSecretListClient true []).calls ++
         (exportRepoStep (mkCtx demoRoot.timeout) failingSecretListClient true demoRepo).calls),
       (exportLoop (mkCtx demoRoot.timeout) failingSecretListClient true []).docs ++
         (exportRepoStep (mkCtx demoRoot.timeout) failingSecretListClient true demoRepo).docs,
       (exportLoop (mkCtx demoRoot.timeout) failingSecretListClient true []).logs ++
         (exportRepoStep (mkCtx demoRoot.timeout) failingSecretListClient true demoRepo).logs,
       some (failedSecretMsg "creds" "boom")⟩ :=
  run_all_stops_at_first_failure demoRoot true [] (fun _ _ => .ok failingSecretListClient)
    failingSecretListClient [] demoRepo [demoRepo] (failedSecretMsg "creds" "boom")
    rfl rfl rfl rfl

/-- Claim C7: every API call issued by any invocation of the command is
issued under the single context built from the per-command timeout
`rootArgs.timeout`. -/
theorem run_calls_use_timeout_ctx (rootArgs : RootArgs)
    (exportArgs : ExportArgs) (withCred : Bool) (args : List String)
    (utilsKubeClient : String → String → Except String KubeClient) :
    ∀ c ∈ (exportSourceGitCmdRun rootArgs exportArgs withCred args utilsKubeClient).calls,
      c.ctx = mkCtx rootArgs.timeout := by
  intro c hc
  simp only [exportSourceGitCmdRun] at hc
  split at hc
  · simp at hc
  · cases hk : utilsKubeClient rootArgs.kubeconfig rootArgs.kubecontext with
    | error e => rw [hk] at hc; simp at hc
    | ok kubeClient =>
      rw [hk] at hc
      simp only at hc
      cases hall : exportArgs.all with
      | true =>
        rw [hall] at hc
        simp only [if_pos] at hc
        cases hl : kubeClient.listGitRepos rootArgs.ns with
        | error e => rw [hl] at hc; simp at hc; subst hc; rfl
        | ok items =>
          rw [hl] at hc
          simp only at hc
          by_cases hlen : items.length = 0
          · simp [hlen] at hc
            subst hc; rfl
          · simp [hlen] at hc
            rcases hc with hc | hc
            · subst hc; rfl
            · exact loop_calls_ctx (mkCtx rootArgs.timeout) kubeClient withCred items c hc
      | false =>
        rw [hall] at hc
        simp only [Bool.false_eq_true, if_false] at hc
        cases hg : kubeClient.getGitRepo ⟨rootArgs.ns, args.headD ""⟩ with
        | error e => rw [hg] at hc; simp at hc; subst hc; rfl
        | ok repository =>
          rw [hg] at hc
          simp only at hc
          cases hw : withCred with
          | false => rw [hw] at hc; simp at hc; subst hc; rfl
          | true =>
            rw [hw] at hc
            simp only [if_pos] at hc
            simp at hc
            rcases hc with hc | hc
            · subst hc; rfl
            · exact creds_calls_ctx (mkCtx rootArgs.timeout) kubeClient repository c hc

/-- Witness for C7: the Get issued by a concrete run carries the timeout
context. -/
theorem run_calls_use_timeout_ctx_witness :
    (ApiCall.getRepo (mkCtx demoRoot.timeout) ⟨demoRoot.ns, "app"⟩).ctx =
      mkCtx demoRoot.timeout :=
  run_calls_use_timeout_ctx demoRoot ⟨false⟩ false ["app"] (fun _ _ => .ok demoClient)
    (ApiCall.getRepo (mkCtx demoRoot.timeout) ⟨demoRoot.ns, "app"⟩) (by simp [exportSourceGitCmdRun, demoClient])

/-- A client on which every call fails with the same error message. -/
def allFailClient : KubeClient :=
  { listGitRepos := fun _ => .error "boom"
    getGitRepo := fun _ => .error "boom"
    getSecret := fun _ => .error "boom" }

/-- Counterexample to C3 as stated: the with-credentials path emits the
normalized Secret, and that document's labels and annotations differ from
the fetched Secret's (they are dropped, not copied). -/
theorem creds_labels_not_copied_cex :
    (exportGitCredentials (mkCtx demoRoot.timeout) demoClient demoRepo).docs =
      [Doc.secret (exportSecret ⟨"flux-system", "creds"⟩ demoSecret)] ∧
    demoClient.getSecret ⟨"flux-system", "creds"⟩ = .ok demoSecret ∧
    (exportSecret ⟨"flux-system", "creds"⟩ demoSecret).objectMeta.labels ≠
      demoSecret.objectMeta.labels ∧
    (exportSecret ⟨"flux-system", "creds"⟩ demoSecret).objectMeta.annotations ≠
      demoSecret.objectMeta.annotations :=
  ⟨rfl, rfl, by decide, by decide⟩

/-- Claim C3 (amended): the exported Secret document carries the requested
name and namespace, copies the fetched Secret's data and type, sets the
TypeMeta to `v1 Secret`, and leaves labels and annotations (and all other
metadata) at their zero values. -/
theorem exportSecret_normalizes (nn : NamespacedName) (cred : Secret) :
    (exportSecret nn cred).objectMeta.name = nn.name ∧
    (exportSecret nn cred).objectMeta.ns = nn.ns ∧
    (exportSecret nn cred).data = cred.data ∧
    (exportSecret nn cred).type = cred.type ∧
    (exportSecret nn cred).objectMeta.labels = [] ∧
    (exportSecret nn cred).objectMeta.annotations = [] ∧
    (exportSecret nn cred).typeMeta = ⟨"Secret", "v1"⟩ :=
  ⟨rfl, rfl, rfl, rfl, rfl, rfl, rfl⟩

/-- Counterexample to C4 as stated: when the credentials Secret Get fails,
the error returned to the user is not the API client's error but a wrapped
message naming the secret. -/
theorem secret_error_wrapped_cex :
    failingSecretClient.getSecret ⟨"flux-system", "creds"⟩ = .error "boom" ∧
    (exportSourceGitCmdRun demoRoot ⟨false⟩ true ["app"]
        (fun _ _ => .ok failingSecretClient)).err =
      some "failed to retrieve secret creds, error: boom" ∧
    (exportSourceGitCmdRun demoRoot ⟨false⟩ true ["app"]
        (fun _ _ => .ok failingSecretClient)).err ≠ some "boom" :=
  ⟨rfl, rfl, by decide⟩

/-- Claim C4 (amended): List errors and GitRepository Get errors are
returned to the user unmodified; a failing credentials Secret Get is
returned wrapped as `failed to retrieve secret NAME, error: ERR`. -/
theorem run_error_propagation (rootArgs : RootArgs) (withCred : Bool)
    (args : List String)
    (utilsKubeClient : String → String → Except String KubeClient)
    (kubeClient : KubeClient) (e : String)
    (hclient : utilsKubeClient rootArgs.kubeconfig rootArgs.kubecontext = .ok kubeClient) :
    (kubeClient.listGitRepos rootArgs.ns = .error e →
      (exportSourceGitCmdRun rootArgs ⟨true⟩ withCred args utilsKubeClient).err = some e) ∧
    (∀ name : String,
      kubeClient.getGitRepo ⟨rootArgs.ns, name⟩ = .error e →
      (exportSourceGitCmdRun rootArgs ⟨false⟩ withCred [name] utilsKubeClient).err = some e) ∧
    (∀ source : GitRepository, ∀ ref : LocalObjectReference,
      source.spec.secretRef = some ref →
      kubeClient.getSecret ⟨source.objectMeta.ns, ref.name⟩ = .error e →
      (exportGitCredentials (mkCtx rootArgs.timeout) kubeClient source).err =
        some (failedSecretMsg ref.name e)) := by
  refine ⟨?_, ?_, ?_⟩
  · intro h
    simp [exportSourceGitCmdRun, hclient, h]
  · intro name h
    simp [exportSourceGitCmdRun, hclient, h]
  · intro source ref h hsec
    simp [exportGitCredentials, h, hsec]

/-- Witness for the amended C4 at a concrete always-failing client. -/
theorem run_error_propagation_witness :
    (exportSourceGitCmdRun demoRoot ⟨true⟩ true []
        (fun _ _ => .ok allFailClient)).err = some "boom" ∧
    (exportSourceGitCmdRun demoRoot ⟨false⟩ true ["app"]
        (fun _ _ => .ok allFailClient)).err = some "boom" ∧
    (exportGitCredentials (mkCtx demoRoot.timeout) allFailClient demoRepo).err =
      some (failedSecretMsg "creds" "boom") :=
  ⟨(run_error_propagation demoRoot true [] (fun _ _ => .ok allFailClient)
      allFailClient "boom" rfl).1 rfl,
   (run_error_propagation demoRoot true [] (fun _ _ => .ok allFailClient)
      allFailClient "boom" rfl).2.1 "app" rfl,
   (run_error_propagation demoRoot true [] (fun _ _ => .ok allFailClient)
      allFailClient "boom" rfl).2.2 demoRepo ⟨"creds"⟩ rfl rfl⟩

/-- Counterexample to C6 as stated: a single-name invocation with
credentials issues two API calls (the repository Get and the Secret Get),
not exactly one. -/
theorem single_call_claim_cex :
    (exportSourceGitCmdRun demoRoot ⟨false⟩ true ["app"]
        (fun _ _ => .ok demoClient)).calls.length = 2 ∧
    (exportSourceGitCmdRun demoRoot ⟨false⟩ true ["app"]
        (fun _ _ => .ok demoClient)).calls.length ≠ 1 :=
  ⟨rfl, by decide⟩

/-- Claim C6 (amended): every invocation that passes argument validation and
client construction issues exactly one repository-level call (one List in
`--all` mode, or one Get of the named GitRepository); any further calls are
credentials Secret Gets. -/
theorem run_one_repo_level_call (rootArgs : RootArgs)
    (exportArgs : ExportArgs) (withCred : Bool) (args : List String)
    (utilsKubeClient : String → String → Except String KubeClient)
    (kubeClient : KubeClient)
    (hargs : exportArgs.all = true ∨ args ≠ [])
    (hclient : utilsKubeClient rootArgs.kubeconfig rootArgs.kubecontext = .ok kubeClient) :
    ((exportSourceGitCmdRun rootArgs exportArgs withCred args
        utilsKubeClient).calls.countP ApiCall.isRepoCall) = 1 := by
  have hcond : (!exportArgs.all && decide (args.length < 1)) = false := by
    rcases hargs with hall | hne
    · simp [hall]
    · cases args with
      | nil => exact absurd rfl hne
      | cons a as => simp
  simp only [exportSourceGitCmdRun, hcond, Bool.false_eq_true, if_false, hclient]
  cases hall : exportArgs.all with
  | true =>
    simp only [if_pos]
    cases hl : kubeClient.listGitRepos rootArgs.ns with
    | error e => simp [List.countP_cons, ApiCall.isRepoCall]
    | ok items =>
      by_cases hlen : items.length = 0
      · simp [hlen, List.countP_cons, ApiCall.isRepoCall]
      · simp only [hlen, if_false]
        simp [List.countP_cons, ApiCall.isRepoCall,
          loop_countP_repo (mkCtx rootArgs.timeout) kubeClient withCred items]
  | false =>
    simp only [Bool.false_eq_true, if_false]
    cases hg : kubeClient.getGitRepo ⟨rootArgs.ns, args.headD ""⟩ with
    | error e => simp [List.countP_cons, ApiCall.isRepoCall]
    | ok repository =>
      cases withCred with
      | false => simp [List.countP_cons, ApiCall.isRepoCall]
      | true =>
        simp [List.countP_cons, ApiCall.isRepoCall,
          creds_countP_repo (mkCtx rootArgs.timeout) kubeClient repository]

/-- Witness for the amended C6: a concrete `--all` run issues exactly one
repository-level call. -/
theorem run_one_repo_level_call_witness :
    ((exportSourceGitCmdRun demoRoot ⟨true⟩ true []
        (fun _ _ => .ok demoClient)).calls.countP ApiCall.isRepoCall) = 1 :=
  run_one_repo_level_call demoRoot ⟨true⟩ true [] (fun _ _ => .ok demoClient)
    demoClient (Or.inl rfl) rfl

end Flux
